import Mathlib

/-!
Verification of the BridgeVR concurrency and session-orchestration core.

The development shallowly embeds the Rust sources of the repository:

* `src/bridgevr_common/src/timeout_map.rs` — the `TimeoutMap` timed
  key/value buffer (`insert`, `remove_any`, `remove`, `remove_expired`).
* `src/bridgevr_server/src/lib.rs` — the session orchestrator
  (`begin_server_loop` and its inner `try_connect` closure).
* `src/bridgevr_common/src/data.rs` — `SessionDesc` / `SessionDescLoader`.

Time is modelled as a natural-number clock (`Instant` ↦ `Nat`,
`Duration` ↦ `Nat`); `Instant - Duration` is truncated subtraction.
Fallible operations return `Option`: `none` models a panic
(an `unwrap` of `None`).
-/

namespace BridgeVR

/-! ### TimeoutMap — src/bridgevr_common/src/timeout_map.rs -/

/-- Entry of the timed buffer (`TimedEntry` in timeout_map.rs):
a key, a value and the insertion timestamp taken from `Instant::now()`. -/
structure TimedEntry (K V : Type) where
  key : K
  value : V
  timestamp : Nat
deriving DecidableEq

/-- `TimeoutMap` (timeout_map.rs): a `VecDeque` of timed entries plus the
eviction timeout.  The `VecDeque` is modelled as a `List` with the front at
the head. -/
structure TimeoutMap (K V : Type) where
  buffer : List (TimedEntry K V)
  timeout : Nat
deriving DecidableEq

/-- Model of `VecDeque::remove(idx)`: removes and returns the element at
position `idx`, or `None` if `idx` is out of bounds. -/
def removeIdx {α : Type} : List α → Nat → Option (α × List α)
  | [], _ => none
  | x :: xs, 0 => some (x, xs)
  | x :: xs, n + 1 => (removeIdx xs n).map (fun p => (p.1, x :: p.2))

namespace TimeoutMap

variable {K V : Type}

/-- `TimeoutMap::new` — empty buffer with the given timeout. -/
def new (timeout : Nat) : TimeoutMap K V := ⟨[], timeout⟩

/-- `TimeoutMap::insert` — `push_back` of an entry stamped with the current
time; the current time is passed explicitly (`Instant::now()` ↦ `now`). -/
def insert (m : TimeoutMap K V) (key : K) (value : V) (now : Nat) : TimeoutMap K V :=
  ⟨m.buffer ++ [⟨key, value, now⟩], m.timeout⟩

/-- `TimeoutMap::remove_any` — `pop_front`, returning the key/value pair of
the oldest entry (if any) together with the updated map. -/
def remove_any (m : TimeoutMap K V) : Option (K × V) × TimeoutMap K V :=
  match m.buffer with
  | [] => (none, m)
  | e :: rest => (some (e.key, e.value), ⟨rest, m.timeout⟩)

/-- Index list computed by `TimeoutMap::remove_expired`
(`.iter().enumerate().filter(|(_, e)| e.timestamp > max_time).map(|(i, _)| i)`),
with `max_time = now - timeout` (truncated). -/
def idx_to_be_removed (m : TimeoutMap K V) (now : Nat) : List Nat :=
  ((m.buffer.enum).filter fun p => decide (p.2.timestamp > now - m.timeout)).map fun p => p.1

/-- The removal loop of `TimeoutMap::remove_expired`
(`idx_to_be_removed.iter().map(|i| self.buffer.remove(*i).unwrap().value)`):
removes the indices one after another from the *mutating* buffer,
collecting the removed values.  `none` models the `unwrap` panicking. -/
def removeSeq : List (TimedEntry K V) → List Nat → Option (List V × List (TimedEntry K V))
  | buf, [] => some ([], buf)
  | buf, i :: rest =>
    match removeIdx buf i with
    | none => none
    | some (e, buf2) =>
      match removeSeq buf2 rest with
      | none => none
      | some (vs, buf3) => some (e.value :: vs, buf3)

/-- `TimeoutMap::remove_expired` — collects the indices of the entries whose
timestamp exceeds `now - timeout`, then removes them front to back. -/
def remove_expired (m : TimeoutMap K V) (now : Nat) :
    Option (List V × TimeoutMap K V) :=
  (removeSeq m.buffer (m.idx_to_be_removed now)).map fun p => (p.1, ⟨p.2, m.timeout⟩)

/-- Model of `.iter().enumerate().find(|(_, e)| e.key == key)` in
`TimeoutMap::remove`: index of the first entry matching `key`. -/
def findMatchIdx [DecidableEq K] (key : K) : List (TimedEntry K V) → Option Nat
  | [] => none
  | e :: rest => if e.key = key then some 0 else (findMatchIdx key rest).map (· + 1)

/-- `TimeoutMap::remove` — front-to-back scan for the first entry whose key
matches, then `VecDeque::remove` at that index (`.map` of its value). -/
def remove [DecidableEq K] (m : TimeoutMap K V) (key : K) : Option V × TimeoutMap K V :=
  match findMatchIdx key m.buffer with
  | some idx =>
    match removeIdx m.buffer idx with
    | some (e, rest) => (some e.value, ⟨rest, m.timeout⟩)
    | none => (none, m)
  | none => (none, m)

end TimeoutMap

/-! ### Operation traces over a TimeoutMap (for the ordering invariant) -/

/-- One mutating operation of the `TimeoutMap` API. -/
inductive Op (K V : Type) where
  | insert (key : K) (value : V)
  | removeAny
  | remove (key : K)
  | removeExpired

/-- Apply one operation at clock value `now`; `none` models a panic inside
`remove_expired`. -/
def applyOp {K V : Type} [DecidableEq K] (m : TimeoutMap K V) (now : Nat) :
    Op K V → Option (TimeoutMap K V)
  | .insert k v => some (m.insert k v now)
  | .removeAny => some (m.remove_any).2
  | .remove k => some (m.remove k).2
  | .removeExpired => (m.remove_expired now).map Prod.snd

/-- Run a trace of operations; each step advances the monotone clock by the
given delay before the operation executes (`Instant::now()` is
non-decreasing across calls). -/
def runOps {K V : Type} [DecidableEq K] :
    TimeoutMap K V → Nat → List (Nat × Op K V) → Option (TimeoutMap K V)
  | m, _, [] => some m
  | m, now, (d, op) :: rest =>
    match applyOp m (now + d) op with
    | none => none
    | some m2 => runOps m2 (now + d) rest

/-- The buffer's entries are in non-decreasing insertion-timestamp order. -/
def EntriesOrdered {K V : Type} (m : TimeoutMap K V) : Prop :=
  List.Pairwise (fun a b => a.timestamp ≤ b.timestamp) m.buffer

/-- Strengthened invariant: ordered buffer whose timestamps never exceed
the current clock value. -/
def ClockInv {K V : Type} (m : TimeoutMap K V) (now : Nat) : Prop :=
  EntriesOrdered m ∧ ∀ e ∈ m.buffer, e.timestamp ≤ now

/-! ### Session record — src/bridgevr_common/src/data.rs -/

/-- Client handshake packet (data.rs); only the fields the orchestrator
inspects are modelled, with the semver `Version` ordered as a `Nat`. -/
structure ClientHandshakePacket where
  version : Nat
  nativeEyeResolution : Nat × Nat
  fps : Nat
deriving DecidableEq

/-- `SessionDesc` (data.rs): persisted session record; the opaque
`settings_cache` JSON value is modelled as a string. -/
structure SessionDesc where
  bitrate : Option Nat
  lastClientHandshakePacket : Option ClientHandshakePacket
  settingsCache : String
deriving DecidableEq

/-- `SessionDesc::default()` — all fields at their defaults. -/
def SessionDesc.default : SessionDesc := ⟨none, none, "null"⟩

/-- Warnings logged by `SessionDescLoader::load`. -/
inductive LoadWarning where
  | invalidSessionFile
  | missingSessionFile
deriving DecidableEq

/-- `SessionDescLoader::load` (data.rs lines 422-437): the filesystem read
and the JSON parse are oracles (`fs::read_to_string` ↦ `readResult`,
`json::from_str` ↦ `parse`).  Loading never fails: a parse failure or a
missing file falls back to the default record with a warning. -/
def sessionDescLoad (readResult : Option String)
    (parse : String → Option SessionDesc) : SessionDesc × List LoadWarning :=
  match readResult with
  | some content =>
    match parse content with
    | some desc => (desc, [])
    | none => (SessionDesc.default, [LoadWarning.invalidSessionFile])
  | none => (SessionDesc.default, [LoadWarning.missingSessionFile])

/-! ### Session orchestrator — src/bridgevr_server/src/lib.rs -/

/-- Modelled from the spec: the `ShutdownSignal` enum of the server's
`shutdown_signal` module (the module itself is not under src/); the spec
fixes the closed variant set `ClientDisconnected`, `BackendShutdown`. -/
inductive ShutdownSignal where
  | clientDisconnected
  | backendShutdown
deriving DecidableEq

/-- Result of one `recv_timeout` call on the shutdown-signal channel. -/
inductive RecvOutcome where
  | signal (s : ShutdownSignal)
  | timedOut
  | disconnected
deriving DecidableEq

/-- The components `try_connect` tracks and stops during teardown. -/
inductive Component where
  | connectionManager
  | compositor
  | videoEncoder (idx : Nat)
  | gameAudioRecorder
  | microphonePlayer
deriving DecidableEq

/-- Observable actions of `try_connect`, recorded in program order. -/
inductive Event where
  | searchClient
  | versionRejected (found expected : Nat)
  | saveSession (ok : Bool)
  | startComponent (c : Component)
  | logStatistics
  | sendShutdownMessage
  | requestStop (c : Component)
  | dropComponent (c : Component)
deriving DecidableEq

/-- Environment of one `try_connect` call: configuration values, the
results of the external fallible calls (success flags), and the script of
shutdown-channel receive outcomes. -/
structure ConnectEnv where
  /-- `BVR_MIN_VERSION_CLIENT` (constants module), ordered as a `Nat`. -/
  minVersionClient : Nat
  /-- `get_settings()` succeeds (after the one retry the code makes). -/
  settingsOk : Bool
  /-- `search_client(..)` result: the client's handshake packet, if any. -/
  searchResult : Option ClientHandshakePacket
  /-- `ConnectionManager::connect_to_client` succeeds. -/
  connectOk : Bool
  /-- `settings.video.frame_slice_count`. -/
  frameSliceCount : Nat
  /-- `Compositor::new` succeeds. -/
  compositorOk : Bool
  /-- every `VideoEncoder::new` / `begin_send_buffers` succeeds. -/
  encodersOk : Bool
  /-- `settings.game_audio` switch. -/
  gameAudioEnabled : Bool
  /-- `AudioRecorder::start_recording` / `begin_send_buffers` succeed. -/
  gameAudioOk : Bool
  /-- `settings.microphone` switch. -/
  microphoneEnabled : Bool
  /-- `begin_receive_indexed_buffers` / `AudioPlayer::start_playback` succeed. -/
  microphoneOk : Bool
  /-- `initialize_for_client_or_request_restart` succeeds. -/
  openvrOk : Bool
  /-- successive results of `recv_timeout` in the heartbeat loop. -/
  recvScript : List RecvOutcome
deriving DecidableEq

/-- Result of one `try_connect` call.  `stillRunning` is a model artifact:
the finite recv script was exhausted while the heartbeat loop was still
waiting. -/
inductive ConnectResult where
  | err
  | stillRunning
  | done (s : ShutdownSignal)
deriving DecidableEq

/-- Heartbeat loop (lib.rs lines 209-219): each iteration logs statistics
then waits on the shutdown channel; a received signal ends the loop with
that signal, disconnection of all senders ends it with `BackendShutdown`,
a timeout continues. -/
def heartbeatLoop : List RecvOutcome → Option ShutdownSignal × List Event
  | [] => (none, [])
  | r :: rest =>
    match r with
    | .signal s => (some s, [.logStatistics])
    | .disconnected => (some .backendShutdown, [.logStatistics])
    | .timedOut =>
      let p := heartbeatLoop rest
      (p.1, .logStatistics :: p.2)

/-- Order of the `request_stop` fan-out (lib.rs lines 235-248):
connection manager, compositor, every video encoder, then the optional
audio recorder and player. -/
def stopOrder (env : ConnectEnv) : List Component :=
  [.connectionManager, .compositor]
    ++ (List.range env.frameSliceCount).map .videoEncoder
    ++ (if env.gameAudioEnabled then [.gameAudioRecorder] else [])
    ++ (if env.microphoneEnabled then [.microphonePlayer] else [])

/-- Drop order when `try_connect` returns: reverse declaration order per
Rust scope rules (the encoder `Vec` drops its elements front to back). -/
def dropOrder (env : ConnectEnv) : List Component :=
  (if env.microphoneEnabled then [.microphonePlayer] else [])
    ++ (if env.gameAudioEnabled then [.gameAudioRecorder] else [])
    ++ (List.range env.frameSliceCount).map .videoEncoder
    ++ [.compositor, .connectionManager]

/-- The pipeline-construction, heartbeat and teardown phase of
`try_connect` (lib.rs lines 102-251), entered once the version gate has
passed and the session record has been updated and saved.  Its event
trace is relative to (and appended after) the discovery/persistence
events. -/
def sessionPhase (env : ConnectEnv) : ConnectResult × List Event :=
  if ¬ env.connectOk then (.err, [])
  else
    let es1 : List Event := [.startComponent .connectionManager]
    if ¬ env.compositorOk then (.err, es1)
    else
      let es2 := es1 ++ [.startComponent .compositor]
      if ¬ env.encodersOk then (.err, es2)
      else
        let es3 := es2 ++
          (List.range env.frameSliceCount).map (fun i => .startComponent (.videoEncoder i))
        if env.gameAudioEnabled ∧ ¬ env.gameAudioOk then (.err, es3)
        else
          let es4 := es3 ++
            (if env.gameAudioEnabled then [.startComponent .gameAudioRecorder] else [])
          if env.microphoneEnabled ∧ ¬ env.microphoneOk then (.err, es4)
          else
            let es5 := es4 ++
              (if env.microphoneEnabled then [.startComponent .microphonePlayer] else [])
            if ¬ env.openvrOk then (.err, es5)
            else
              let hb := heartbeatLoop env.recvScript
              let es6 := es5 ++ hb.2
              match hb.1 with
              | none => (.stillRunning, es6)
              | some s =>
                let es7 := es6 ++
                  (if s = .backendShutdown then [Event.sendShutdownMessage] else [])
                let es8 := es7 ++ (stopOrder env).map .requestStop
                (.done s, es8 ++ (dropOrder env).map .dropComponent)

/-- The `try_connect` closure of `begin_server_loop` (lib.rs lines
52-252): settings and discovery, the version gate, the session-record
update and save (whose success `saveOk` is consumed only by the logged
event), then the session phase.  Returns the result, the session record
after the call, and the trace of observable actions in program order. -/
def tryConnect (env : ConnectEnv) (saveOk : Bool) (session0 : SessionDesc) :
    ConnectResult × SessionDesc × List Event :=
  if ¬ env.settingsOk then (.err, session0, [])
  else
    match env.searchResult with
    | none => (.err, session0, [.searchClient])
    | some hp =>
      if hp.version < env.minVersionClient then
        (.err, session0,
          [.searchClient, .versionRejected hp.version env.minVersionClient])
      else
        let session1 : SessionDesc :=
          { session0 with lastClientHandshakePacket := some hp }
        let r := sessionPhase env
        (r.1, session1, [.searchClient, .saveSession saveOk] ++ r.2)

/-- Events of a fully successful setup phase of `try_connect`, in program
order. -/
def setupEvents (env : ConnectEnv) (saveOk : Bool) : List Event :=
  [.searchClient, .saveSession saveOk, .startComponent .connectionManager,
    .startComponent .compositor]
    ++ (List.range env.frameSliceCount).map (fun i => .startComponent (.videoEncoder i))
    ++ (if env.gameAudioEnabled then [.startComponent .gameAudioRecorder] else [])
    ++ (if env.microphoneEnabled then [.startComponent .microphonePlayer] else [])

/-- Concrete environment: a client offering version 3 against minimum 5. -/
def envVersionLow : ConnectEnv :=
  ⟨5, true, some ⟨3, (1920, 1080), 72⟩, true, 1, true, true, false, true,
    false, true, true, []⟩

/-- Concrete environment: fully successful session, two video slices and
both audio streams, ending when the client disconnects. -/
def envClientDisc : ConnectEnv :=
  ⟨1, true, some ⟨2, (1920, 1080), 72⟩, true, 2, true, true, true, true,
    true, true, true, [.timedOut, .signal .clientDisconnected]⟩

/-- Concrete environment: fully successful session ending when the
shutdown channel's senders all disconnect. -/
def envChannelDisc : ConnectEnv :=
  ⟨1, true, some ⟨2, (1920, 1080), 72⟩, true, 2, true, true, true, true,
    true, true, true, [.timedOut, .disconnected]⟩

/-- Result of `shutdown_signal_receiver.try_recv()` in the outer loop. -/
inductive TryRecvOutcome where
  | got (s : ShutdownSignal)
  | emptyChannel
  | disconnected
deriving DecidableEq

/-- Outcome of one outer-loop iteration: `Ok(signal)` from `try_connect`,
or `Err(())` together with the `try_recv` result the error branch then
consults. -/
inductive IterOutcome where
  | ok (s : ShutdownSignal)
  | err (t : TryRecvOutcome)
deriving DecidableEq

/-- One iteration of the outer connection loop, abstracted: the time at
which the `while` guard is evaluated, the iteration's outcome, and the
time at which the iteration ends. -/
structure LoopIter where
  tStart : Nat
  outcome : IterOutcome
  tEnd : Nat
deriving DecidableEq

/-- The outer `while Instant::now() < deadline` loop of `begin_server_loop`
(lib.rs lines 257-270), run over a script of iterations; returns the
iterations actually executed.  `Ok(ClientDisconnected)` resets the
deadline to the iteration end time plus the timeout, `Ok(BackendShutdown)`
breaks, and on `Err` the loop breaks exactly when `try_recv` yields
`Ok(BackendShutdown)` or `Err(Disconnected)`. -/
def serverRun (timeout : Nat) : Nat → List LoopIter → List LoopIter
  | _, [] => []
  | deadline, it :: rest =>
    if it.tStart < deadline then
      it ::
        (match it.outcome with
         | .ok .clientDisconnected => serverRun timeout (it.tEnd + timeout) rest
         | .ok .backendShutdown => []
         | .err (.got .backendShutdown) => []
         | .err .disconnected => []
         | .err (.got .clientDisconnected) => serverRun timeout deadline rest
         | .err .emptyChannel => serverRun timeout deadline rest)
    else []

end BridgeVR

namespace BridgeVR

open TimeoutMap

/-- Claim C1: `remove_expired` is claimed to remove and return exactly the
entries whose age exceeds the timeout, keeping the younger ones.  The code
does the opposite: its filter `timestamp > now - timeout` selects the
entries *younger* than the timeout.  At timeout 10 and time 10, an entry
inserted at time 8 (age 2 < 10) is removed and returned, while at timeout 2
and time 10 an entry inserted at time 0 (age 10 > 2) is kept. -/
theorem C1_remove_expired_filter_inverted :
    TimeoutMap.remove_expired (⟨[⟨0, 42, 8⟩], 10⟩ : TimeoutMap Nat Nat) 10
        = some ([42], ⟨[], 10⟩) ∧
    TimeoutMap.remove_expired (⟨[⟨0, 7, 0⟩], 2⟩ : TimeoutMap Nat Nat) 10
        = some ([], ⟨[⟨0, 7, 0⟩], 2⟩) := by
  decide

/-- Claim C2: the removals of `remove_expired` are claimed to stay valid
(the inner `unwrap` never panics and only selected entries are removed).
In the code the indices are collected first but then removed front to back
from the shrinking buffer.  With two selected entries (indices `[0, 1]`)
the second removal is out of bounds and the `unwrap` panics (`none`); with
selected indices `[0, 1]` out of three entries, the second removal deletes
the unselected third entry and leaves a selected one in the buffer. -/
theorem C2_remove_expired_indices_not_reconciled :
    TimeoutMap.remove_expired (⟨[⟨0, 1, 8⟩, ⟨1, 2, 9⟩], 10⟩ : TimeoutMap Nat Nat) 10
        = none ∧
    TimeoutMap.remove_expired
        (⟨[⟨0, 1, 8⟩, ⟨1, 2, 9⟩, ⟨2, 3, 0⟩], 10⟩ : TimeoutMap Nat Nat) 10
        = some ([1, 3], ⟨[⟨1, 2, 9⟩], 10⟩) := by
  decide

/-! ### Helper lemmas about `TimeoutMap.remove` -/

theorem find_eq_head_filter {α : Type} (p : α → Bool) (l : List α) :
    l.find? p = (l.filter p).head? := by
  induction l with
  | nil => rfl
  | cons x xs ih => cases h : p x <;> rw [List.find?_cons, List.filter_cons, h] <;> simpa using ih

theorem filter_eraseP {α : Type} (p : α → Bool) (l : List α) :
    (l.eraseP p).filter p = (l.filter p).tail := by
  induction l with
  | nil => rfl
  | cons x xs ih => by_cases h : p x <;> simp [List.eraseP_cons, List.filter_cons, h, ih]

theorem findMatchIdx_removeIdx {K V : Type} [DecidableEq K] (key : K)
    (l : List (TimedEntry K V)) :
    (TimeoutMap.findMatchIdx key l).bind (removeIdx l) =
      (l.find? fun e => decide (e.key = key)).map
        (fun e => (e, l.eraseP fun e => decide (e.key = key))) := by
  induction l with
  | nil => rfl
  | cons x xs ih =>
    by_cases h : x.key = key
    · simp [TimeoutMap.findMatchIdx, h, removeIdx, List.find?_cons, List.eraseP_cons]
    · rw [TimeoutMap.findMatchIdx, if_neg h, List.find?_cons, List.eraseP_cons]
      cases hfi : TimeoutMap.findMatchIdx key xs with
      | none =>
        rw [hfi] at ih
        cases hf : xs.find? fun e => decide (e.key = key) with
        | none => simp [h, hf]
        | some e => rw [hf] at ih; simp at ih
      | some j =>
        rw [hfi] at ih
        cases hf : xs.find? fun e => decide (e.key = key) with
        | none =>
          rw [hf] at ih
          simp at ih
          simp [h, hf, removeIdx, ih]
        | some e =>
          rw [hf] at ih
          simp at ih
          simp [h, hf, removeIdx, ih]

theorem remove_eq {K V : Type} [DecidableEq K] (m : TimeoutMap K V) (key : K) :
    m.remove key =
      ((m.buffer.find? fun e => decide (e.key = key)).map TimedEntry.value,
        ⟨m.buffer.eraseP fun e => decide (e.key = key), m.timeout⟩) := by
  have h := findMatchIdx_removeIdx key m.buffer
  unfold TimeoutMap.remove
  cases hfi : TimeoutMap.findMatchIdx key m.buffer with
  | none =>
    rw [hfi] at h
    simp at h
    cases hf : m.buffer.find? fun e => decide (e.key = key) with
    | none =>
      have he : m.buffer.eraseP (fun e => decide (e.key = key)) = m.buffer :=
        List.eraseP_of_forall_not (by
          intro a ha
          have := List.find?_eq_none.mp hf a ha
          simpa using this)
      simp [he]
    | some e => rw [hf] at h; simp at h
  | some idx =>
    rw [hfi] at h
    simp at h
    cases hf : m.buffer.find? fun e => decide (e.key = key) with
    | none =>
      rw [hf] at h
      simp at h
      have he : m.buffer.eraseP (fun e => decide (e.key = key)) = m.buffer :=
        List.eraseP_of_forall_not (by
          intro a ha
          have := List.find?_eq_none.mp hf a ha
          simpa using this)
      simp [h, he]
    | some e =>
      rw [hf] at h
      simp at h
      simp [h]

/-- Claim C3: on a map with at least one entry matching `key`, `remove`
returns the value of the oldest (front-most) matching entry and deletes
exactly that entry; a second `remove` then returns the next-oldest
duplicate's value if one exists and `none` otherwise. -/
theorem C3_remove_drains_oldest_first {K V : Type} [DecidableEq K]
    (m : TimeoutMap K V) (key : K)
    (h : (m.buffer.filter fun e => decide (e.key = key)) ≠ []) :
    ∃ e rest, (m.buffer.filter fun e => decide (e.key = key)) = e :: rest ∧
      (m.remove key).1 = some e.value ∧
      (m.remove key).2.buffer = m.buffer.eraseP (fun e => decide (e.key = key)) ∧
      (((m.remove key).2).remove key).1 = rest.head?.map TimedEntry.value := by
  obtain ⟨e, rest, hf⟩ := List.exists_cons_of_ne_nil h
  refine ⟨e, rest, hf, ?_, ?_, ?_⟩
  · rw [remove_eq]
    simp [find_eq_head_filter, hf]
  · rw [remove_eq]
  · rw [remove_eq, remove_eq]
    simp [find_eq_head_filter, filter_eraseP, hf]

/-- Witness for C3 at a concrete map holding two entries with key 1 and one
with key 2. -/
theorem C3_witness :
    ∃ e rest,
      ((⟨[⟨1, 10, 0⟩, ⟨2, 20, 1⟩, ⟨1, 30, 2⟩], 5⟩ :
          TimeoutMap Nat Nat).buffer.filter fun e => decide (e.key = 1)) = e :: rest ∧
      ((⟨[⟨1, 10, 0⟩, ⟨2, 20, 1⟩, ⟨1, 30, 2⟩], 5⟩ :
          TimeoutMap Nat Nat).remove 1).1 = some e.value ∧
      ((⟨[⟨1, 10, 0⟩, ⟨2, 20, 1⟩, ⟨1, 30, 2⟩], 5⟩ :
          TimeoutMap Nat Nat).remove 1).2.buffer =
        (⟨[⟨1, 10, 0⟩, ⟨2, 20, 1⟩, ⟨1, 30, 2⟩], 5⟩ :
          TimeoutMap Nat Nat).buffer.eraseP (fun e => decide (e.key = 1)) ∧
      ((((⟨[⟨1, 10, 0⟩, ⟨2, 20, 1⟩, ⟨1, 30, 2⟩], 5⟩ :
          TimeoutMap Nat Nat).remove 1).2).remove 1).1 =
        rest.head?.map TimedEntry.value :=
  C3_remove_drains_oldest_first ⟨[⟨1, 10, 0⟩, ⟨2, 20, 1⟩, ⟨1, 30, 2⟩], 5⟩ 1 (by decide)

/-- Claim C10: `remove` on a key with no matching entry returns `None` and
leaves the map unchanged (same entries, order and timestamps). -/
theorem C10_remove_no_match_is_noop {K V : Type} [DecidableEq K]
    (m : TimeoutMap K V) (key : K) (h : ∀ e ∈ m.buffer, e.key ≠ key) :
    m.remove key = (none, m) := by
  rw [remove_eq]
  have hf : m.buffer.find? (fun e => decide (e.key = key)) = none :=
    List.find?_eq_none.mpr (by intro x hx; simpa using h x hx)
  have he : m.buffer.eraseP (fun e => decide (e.key = key)) = m.buffer :=
    List.eraseP_of_forall_not (by intro x hx; simpa using h x hx)
  rw [hf, he]
  rfl

/-- Witness for C10: removing the absent key 2 from a one-entry map. -/
theorem C10_witness :
    (⟨[⟨1, 10, 0⟩], 5⟩ : TimeoutMap Nat Nat).remove 2 =
      (none, (⟨[⟨1, 10, 0⟩], 5⟩ : TimeoutMap Nat Nat)) :=
  C10_remove_no_match_is_noop ⟨[⟨1, 10, 0⟩], 5⟩ 2 (by decide)

/-! ### Ordering invariant for traces of operations (C4) -/

theorem removeIdx_sublist {α : Type} :
    ∀ (l : List α) (i : Nat) (x : α) (rest : List α),
      removeIdx l i = some (x, rest) → List.Sublist rest l := by
  intro l
  induction l with
  | nil => intro i x rest h; simp [removeIdx] at h
  | cons y ys ih =>
    intro i x rest h
    cases i with
    | zero =>
      simp [removeIdx] at h
      rw [← h.2]
      exact (List.Sublist.refl ys).cons y
    | succ n =>
      cases hq : removeIdx ys n with
      | none => rw [removeIdx, hq] at h; simp at h
      | some q =>
        rw [removeIdx, hq] at h
        simp at h
        rw [← h.2]
        exact (ih n q.1 q.2 (by rw [hq])).cons₂ y

theorem removeSeq_sublist {K V : Type} :
    ∀ (idxs : List Nat) (buf : List (TimedEntry K V)) (vs : List V)
      (buf2 : List (TimedEntry K V)),
      TimeoutMap.removeSeq buf idxs = some (vs, buf2) → List.Sublist buf2 buf := by
  intro idxs
  induction idxs with
  | nil =>
    intro buf vs buf2 h
    simp [TimeoutMap.removeSeq] at h
    rw [← h.2]
  | cons i rest ih =>
    intro buf vs buf2 h
    rw [TimeoutMap.removeSeq] at h
    split at h
    · exact absurd h (by simp)
    · rename_i e pbuf heq
      split at h
      · exact absurd h (by simp)
      · rename_i vs3 buf3 heq2
        simp at h
        rw [← h.2]
        exact (ih pbuf vs3 buf3 heq2).trans (removeIdx_sublist buf i e pbuf heq)

theorem clockInv_mono {K V : Type} (m : TimeoutMap K V) (n1 n2 : Nat)
    (h : ClockInv m n1) (hle : n1 ≤ n2) : ClockInv m n2 :=
  ⟨h.1, fun e he => le_trans (h.2 e he) hle⟩

theorem clockInv_sublist {K V : Type} (m m2 : TimeoutMap K V) (now : Nat)
    (h : ClockInv m now) (hs : List.Sublist m2.buffer m.buffer) : ClockInv m2 now :=
  ⟨h.1.sublist hs, fun e he => h.2 e (hs.mem he)⟩

theorem clockInv_insert {K V : Type} (m : TimeoutMap K V) (k : K) (v : V) (now : Nat)
    (h : ClockInv m now) : ClockInv (m.insert k v now) now := by
  constructor
  · refine List.pairwise_append.mpr ⟨h.1, List.pairwise_singleton _ _, ?_⟩
    intro a ha b hb
    rw [List.mem_singleton] at hb
    subst hb
    exact h.2 a ha
  · intro e he
    rcases List.mem_append.mp he with he | he
    · exact h.2 e he
    · rw [List.mem_singleton] at he
      subst he
      exact le_rfl

theorem applyOp_clockInv {K V : Type} [DecidableEq K] (m m2 : TimeoutMap K V)
    (now : Nat) (op : Op K V) (h : ClockInv m now)
    (hstep : applyOp m now op = some m2) : ClockInv m2 now := by
  cases op with
  | insert k v =>
    simp [applyOp] at hstep
    rw [← hstep]
    exact clockInv_insert m k v now h
  | removeAny =>
    simp [applyOp] at hstep
    refine clockInv_sublist m m2 now h ?_
    rw [← hstep]
    cases hb : m.buffer with
    | nil => simp [TimeoutMap.remove_any, hb]
    | cons e rest => simp [TimeoutMap.remove_any, hb]
  | remove k =>
    simp [applyOp] at hstep
    refine clockInv_sublist m m2 now h ?_
    rw [← hstep, remove_eq]
    exact List.eraseP_sublist m.buffer
  | removeExpired =>
    simp [applyOp, TimeoutMap.remove_expired] at hstep
    obtain ⟨vs, buf2, hseq, hm2⟩ := hstep
    refine clockInv_sublist m m2 now h ?_
    rw [← hm2]
    exact removeSeq_sublist _ m.buffer vs buf2 hseq

theorem runOps_clockInv {K V : Type} [DecidableEq K] :
    ∀ (tr : List (Nat × Op K V)) (m : TimeoutMap K V) (now : Nat)
      (m2 : TimeoutMap K V),
      ClockInv m now → runOps m now tr = some m2 → ∃ t2, now ≤ t2 ∧ ClockInv m2 t2 := by
  intro tr
  induction tr with
  | nil =>
    intro m now m2 h hrun
    simp [runOps] at hrun
    rw [← hrun]
    exact ⟨now, le_rfl, h⟩
  | cons step rest ih =>
    intro m now m2 h hrun
    obtain ⟨d, op⟩ := step
    rw [runOps] at hrun
    cases hs : applyOp m (now + d) op with
    | none => rw [hs] at hrun; simp at hrun
    | some m1 =>
      rw [hs] at hrun
      have h1 : ClockInv m1 (now + d) :=
        applyOp_clockInv m m1 (now + d) op
          (clockInv_mono m now (now + d) h (Nat.le_add_right _ _)) hs
      obtain ⟨t2, ht, hinv⟩ := ih m1 (now + d) m2 h1 hrun
      exact ⟨t2, le_trans (Nat.le_add_right _ _) ht, hinv⟩

/-- Claim C4: starting from an empty map, every trace of `insert`,
`remove_any`, `remove` and `remove_expired` operations (executed at
non-decreasing clock values) keeps the buffer's entries in non-decreasing
insertion-timestamp order. -/
theorem C4_buffer_stays_time_ordered {K V : Type} [DecidableEq K]
    (timeout : Nat) (tr : List (Nat × Op K V)) (m : TimeoutMap K V)
    (h : runOps (TimeoutMap.new timeout) 0 tr = some m) : EntriesOrdered m := by
  have hinv : ClockInv (TimeoutMap.new timeout : TimeoutMap K V) 0 :=
    ⟨List.Pairwise.nil, by intro e he; simp [TimeoutMap.new] at he⟩
  obtain ⟨t2, _, hinv2⟩ := runOps_clockInv tr (TimeoutMap.new timeout) 0 m hinv h
  exact hinv2.1

/-- Witness for C4: a concrete trace of two inserts, a sweep and a keyed
removal, evaluated from the empty map. -/
theorem C4_witness :
    EntriesOrdered (⟨[⟨2, 20, 3⟩], 0⟩ : TimeoutMap Nat Nat) :=
  C4_buffer_stays_time_ordered 0
    [(1, .insert 1 10), (2, .insert 2 20), (1, .removeExpired), (0, .remove 1)]
    ⟨[⟨2, 20, 3⟩], 0⟩ (by decide)

/-! ### Version gate and outer loop (C5, C7) -/

/-- Claim C5: a client whose protocol version is below the configured
minimum aborts the connection attempt with an error before the session
record is touched, any channel is built or any worker started: the trace
holds only the discovery step and the logged rejection, and the session
record is returned unchanged.  Moreover the outer loop, on an error
outcome with nothing pending on the shutdown channel, continues with
discovery instead of exiting. -/
theorem C5_version_gate_aborts_early (env : ConnectEnv) (saveOk : Bool)
    (session0 : SessionDesc) (hp : ClientHandshakePacket)
    (hset : env.settingsOk = true)
    (hs : env.searchResult = some hp) (hv : hp.version < env.minVersionClient) :
    tryConnect env saveOk session0 =
      (.err, session0,
        [.searchClient, .versionRejected hp.version env.minVersionClient]) ∧
    ∀ (timeout deadline : Nat) (it : LoopIter) (rest : List LoopIter),
      it.tStart < deadline → it.outcome = .err .emptyChannel →
      serverRun timeout deadline (it :: rest) = it :: serverRun timeout deadline rest := by
  constructor
  · simp [tryConnect, hset, hs, hv]
  · intro timeout deadline it rest hlt hout
    simp [serverRun, if_pos hlt, hout]

/-- Witness for C5: the concrete low-version environment. -/
theorem C5_witness :
    tryConnect envVersionLow true SessionDesc.default =
      (.err, SessionDesc.default, [.searchClient, .versionRejected 3 5]) :=
  (C5_version_gate_aborts_early envVersionLow true SessionDesc.default
    ⟨3, (1920, 1080), 72⟩ rfl rfl (by decide)).1

/-- Claim C7: in the outer connection loop, an iteration ending in
`ClientDisconnected` resets the deadline to its end time plus the timeout
and the loop continues; an iteration ending in `BackendShutdown` ends the
loop with no further iterations; and once the deadline has elapsed no
iteration runs at all. -/
theorem C7_outer_loop_deadline (timeout deadline : Nat) (it : LoopIter)
    (rest : List LoopIter) :
    (it.tStart < deadline → it.outcome = .ok .clientDisconnected →
      serverRun timeout deadline (it :: rest) =
        it :: serverRun timeout (it.tEnd + timeout) rest) ∧
    (it.tStart < deadline → it.outcome = .ok .backendShutdown →
      serverRun timeout deadline (it :: rest) = [it]) ∧
    (deadline ≤ it.tStart → serverRun timeout deadline (it :: rest) = []) := by
  refine ⟨?_, ?_, ?_⟩
  · intro h1 h2
    simp [serverRun, if_pos h1, h2]
  · intro h1 h2
    simp [serverRun, if_pos h1, h2]
  · intro h
    simp [serverRun, Nat.not_lt.mpr h]

/-- Witness for C7: one client-disconnect iteration inside the deadline,
with timeout 5, resets the deadline to 4 + 5. -/
theorem C7_witness :
    serverRun 5 10 [⟨3, .ok .clientDisconnected, 4⟩] =
      ⟨3, .ok .clientDisconnected, 4⟩ :: serverRun 5 (4 + 5) [] :=
  (C7_outer_loop_deadline 5 10 ⟨3, .ok .clientDisconnected, 4⟩ []).1 (by decide) rfl

/-! ### The successful-session path of `try_connect` (C6, C8, C9) -/

/-- Every event emitted by the heartbeat loop is a statistics log. -/
theorem heartbeatLoop_events (script : List RecvOutcome) :
    ∀ e ∈ (heartbeatLoop script).2, e = Event.logStatistics := by
  induction script with
  | nil => simp [heartbeatLoop]
  | cons r rest ih =>
    cases r with
    | signal s => simp [heartbeatLoop]
    | disconnected => simp [heartbeatLoop]
    | timedOut =>
      intro e he
      simp only [heartbeatLoop] at he
      rcases List.mem_cons.mp he with he | he
      · exact he
      · exact ih e he

/-- On a fully successful setup whose heartbeat loop terminates with
signal `s`, `try_connect` stores the handshake in the session record and
its trace is: setup events, heartbeat logs, the shutdown notice exactly
when `s` is `BackendShutdown`, the stop fan-out, then the drops. -/
theorem tryConnect_success (env : ConnectEnv) (saveOk : Bool)
    (session0 : SessionDesc) (hp : ClientHandshakePacket) (s : ShutdownSignal)
    (hset : env.settingsOk = true) (hs : env.searchResult = some hp)
    (hv : ¬ hp.version < env.minVersionClient)
    (hc : env.connectOk = true) (hcomp : env.compositorOk = true)
    (henc : env.encodersOk = true) (hga : env.gameAudioOk = true)
    (hmic : env.microphoneOk = true) (hov : env.openvrOk = true)
    (hhb : (heartbeatLoop env.recvScript).1 = some s) :
    tryConnect env saveOk session0 =
      (.done s, { session0 with lastClientHandshakePacket := some hp },
        setupEvents env saveOk ++ (heartbeatLoop env.recvScript).2
          ++ (if s = .backendShutdown then [Event.sendShutdownMessage] else [])
          ++ (stopOrder env).map Event.requestStop
          ++ (dropOrder env).map Event.dropComponent) := by
  simp [tryConnect, sessionPhase, setupEvents, hset, hs, hv, hc, hcomp, henc,
    hga, hmic, hov, hhb]

/-- Claim C6: during teardown of a successfully built session a
non-blocking stop request is issued to every tracked component before any
component is released: the trace splits into a drop-free part containing
`requestStop` for every tracked component, followed by the drops; and the
tracked list covers the connection manager, the compositor, every video
encoder, and the enabled audio recorder and player. -/
theorem C6_stop_fanout_precedes_release (env : ConnectEnv) (saveOk : Bool)
    (session0 : SessionDesc) (hp : ClientHandshakePacket) (s : ShutdownSignal)
    (hset : env.settingsOk = true) (hs : env.searchResult = some hp)
    (hv : ¬ hp.version < env.minVersionClient)
    (hc : env.connectOk = true) (hcomp : env.compositorOk = true)
    (henc : env.encodersOk = true) (hga : env.gameAudioOk = true)
    (hmic : env.microphoneOk = true) (hov : env.openvrOk = true)
    (hhb : (heartbeatLoop env.recvScript).1 = some s) :
    ∃ pre post, (tryConnect env saveOk session0).2.2 = pre ++ post ∧
      (∀ c : Component, Event.dropComponent c ∉ pre) ∧
      (∀ c ∈ stopOrder env, Event.requestStop c ∈ pre) ∧
      post = (dropOrder env).map Event.dropComponent ∧
      Component.connectionManager ∈ stopOrder env ∧
      Component.compositor ∈ stopOrder env ∧
      (∀ i < env.frameSliceCount, Component.videoEncoder i ∈ stopOrder env) ∧
      (env.gameAudioEnabled = true → Component.gameAudioRecorder ∈ stopOrder env) ∧
      (env.microphoneEnabled = true → Component.microphonePlayer ∈ stopOrder env) := by
  refine ⟨setupEvents env saveOk ++ (heartbeatLoop env.recvScript).2
      ++ (if s = .backendShutdown then [Event.sendShutdownMessage] else [])
      ++ (stopOrder env).map Event.requestStop,
    (dropOrder env).map Event.dropComponent, ?_, ?_, ?_, rfl, ?_, ?_, ?_, ?_, ?_⟩
  · rw [tryConnect_success env saveOk session0 hp s hset hs hv hc hcomp henc hga
      hmic hov hhb]
  · intro c hcmem
    simp only [List.mem_append] at hcmem
    rcases hcmem with ((hm | hm) | hm) | hm
    · cases hga2 : env.gameAudioEnabled <;> cases hmic2 : env.microphoneEnabled <;>
        simp [setupEvents, hga2, hmic2] at hm
    · exact absurd (heartbeatLoop_events env.recvScript _ hm) (by simp)
    · by_cases hbs : s = ShutdownSignal.backendShutdown <;> simp [hbs] at hm
    · simp [List.mem_map] at hm
  · intro c hcmem
    simp only [List.mem_append]
    exact Or.inr (List.mem_map_of_mem Event.requestStop hcmem)
  · simp [stopOrder]
  · simp [stopOrder]
  · intro i hi
    simp [stopOrder, hi]
  · intro h
    simp [stopOrder, h]
  · intro h
    simp [stopOrder, h]

/-- Witness for C6: the concrete two-slice, both-audio environment whose
heartbeat ends with a client disconnect. -/
theorem C6_witness :
    ∃ pre post,
      (tryConnect envClientDisc true SessionDesc.default).2.2 = pre ++ post ∧
      (∀ c : Component, Event.dropComponent c ∉ pre) ∧
      (∀ c ∈ stopOrder envClientDisc, Event.requestStop c ∈ pre) ∧
      post = (dropOrder envClientDisc).map Event.dropComponent ∧
      Component.connectionManager ∈ stopOrder envClientDisc ∧
      Component.compositor ∈ stopOrder envClientDisc ∧
      (∀ i < envClientDisc.frameSliceCount,
        Component.videoEncoder i ∈ stopOrder envClientDisc) ∧
      (envClientDisc.gameAudioEnabled = true →
        Component.gameAudioRecorder ∈ stopOrder envClientDisc) ∧
      (envClientDisc.microphoneEnabled = true →
        Component.microphonePlayer ∈ stopOrder envClientDisc) :=
  C6_stop_fanout_precedes_release envClientDisc true SessionDesc.default
    ⟨2, (1920, 1080), 72⟩ .clientDisconnected rfl rfl (by decide) rfl rfl rfl rfl
    rfl rfl rfl

/-- Claim C8: when the heartbeat wait ends because every sender of the
shutdown channel has disconnected, the session behaves exactly as on
`BackendShutdown`: the heartbeat loop yields `BackendShutdown`, the
connection finishes as `done BackendShutdown`, and a shutdown notice is
sent to the client before any stop or release action; the notice is never
emitted when the session ends with `ClientDisconnected`. -/
theorem C8_channel_disconnect_acts_as_backend_shutdown :
    (∀ (n : Nat) (rest : List RecvOutcome),
      (heartbeatLoop (List.replicate n RecvOutcome.timedOut
          ++ RecvOutcome.disconnected :: rest)).1 =
        some ShutdownSignal.backendShutdown) ∧
    (∀ (env : ConnectEnv) (saveOk : Bool) (session0 : SessionDesc)
        (hp : ClientHandshakePacket),
      env.settingsOk = true → env.searchResult = some hp →
      ¬ hp.version < env.minVersionClient → env.connectOk = true →
      env.compositorOk = true → env.encodersOk = true → env.gameAudioOk = true →
      env.microphoneOk = true → env.openvrOk = true →
      (heartbeatLoop env.recvScript).1 = some ShutdownSignal.backendShutdown →
      (tryConnect env saveOk session0).1 = .done ShutdownSignal.backendShutdown ∧
      ∃ pre post, (tryConnect env saveOk session0).2.2 =
          pre ++ Event.sendShutdownMessage :: post ∧
        ∀ c : Component,
          Event.requestStop c ∉ pre ∧ Event.dropComponent c ∉ pre) ∧
    (∀ (env : ConnectEnv) (saveOk : Bool) (session0 : SessionDesc)
        (hp : ClientHandshakePacket),
      env.settingsOk = true → env.searchResult = some hp →
      ¬ hp.version < env.minVersionClient → env.connectOk = true →
      env.compositorOk = true → env.encodersOk = true → env.gameAudioOk = true →
      env.microphoneOk = true → env.openvrOk = true →
      (heartbeatLoop env.recvScript).1 = some ShutdownSignal.clientDisconnected →
      Event.sendShutdownMessage ∉ (tryConnect env saveOk session0).2.2) := by
  refine ⟨?_, ?_, ?_⟩
  · intro n rest
    induction n with
    | zero => rfl
    | succ k ih => simpa [List.replicate_succ, heartbeatLoop] using ih
  · intro env saveOk session0 hp hset hs hv hc hcomp henc hga hmic hov hhb
    rw [tryConnect_success env saveOk session0 hp .backendShutdown hset hs hv hc
      hcomp henc hga hmic hov hhb]
    refine ⟨rfl, setupEvents env saveOk ++ (heartbeatLoop env.recvScript).2,
      (stopOrder env).map Event.requestStop
        ++ (dropOrder env).map Event.dropComponent, ?_, ?_⟩
    · simp
    · intro c
      refine ⟨fun hm => ?_, fun hm => ?_⟩
      · rcases List.mem_append.mp hm with hm | hm
        · cases hga2 : env.gameAudioEnabled <;> cases hmic2 : env.microphoneEnabled <;>
            simp [setupEvents, hga2, hmic2] at hm
        · exact absurd (heartbeatLoop_events env.recvScript _ hm) (by simp)
      · rcases List.mem_append.mp hm with hm | hm
        · cases hga2 : env.gameAudioEnabled <;> cases hmic2 : env.microphoneEnabled <;>
            simp [setupEvents, hga2, hmic2] at hm
        · exact absurd (heartbeatLoop_events env.recvScript _ hm) (by simp)
  · intro env saveOk session0 hp hset hs hv hc hcomp henc hga hmic hov hhb
    rw [tryConnect_success env saveOk session0 hp .clientDisconnected hset hs hv
      hc hcomp henc hga hmic hov hhb]
    intro hm
    have h0 : (if ShutdownSignal.clientDisconnected = ShutdownSignal.backendShutdown
        then [Event.sendShutdownMessage] else []) = ([] : List Event) := rfl
    rw [h0] at hm
    simp only [List.append_nil, List.mem_append] at hm
    rcases hm with ((hm | hm) | hm) | hm
    · cases hga2 : env.gameAudioEnabled <;> cases hmic2 : env.microphoneEnabled <;>
        simp [setupEvents, hga2, hmic2] at hm
    · exact absurd (heartbeatLoop_events env.recvScript _ hm) (by simp)
    · simp [List.mem_map] at hm
    · simp [List.mem_map] at hm

/-- Witness for C8: the concrete environment whose heartbeat script ends
with the channel disconnecting. -/
theorem C8_witness :
    (tryConnect envChannelDisc true SessionDesc.default).1 =
        .done ShutdownSignal.backendShutdown ∧
    ∃ pre post, (tryConnect envChannelDisc true SessionDesc.default).2.2 =
        pre ++ Event.sendShutdownMessage :: post ∧
      ∀ c : Component, Event.requestStop c ∉ pre ∧ Event.dropComponent c ∉ pre :=
  C8_channel_disconnect_acts_as_backend_shutdown.2.1 envChannelDisc true
    SessionDesc.default ⟨2, (1920, 1080), 72⟩ rfl rfl (by decide) rfl rfl rfl rfl
    rfl rfl rfl

/-! ### Session persistence around the handshake (C9) -/

/-- Once the version gate passes, the session record is updated with the
client's handshake and the save is attempted, whatever happens later in
the attempt. -/
theorem tryConnect_session_updated (env : ConnectEnv) (saveOk : Bool)
    (session0 : SessionDesc) (hp : ClientHandshakePacket)
    (hset : env.settingsOk = true)
    (hs : env.searchResult = some hp) (hv : ¬ hp.version < env.minVersionClient) :
    (tryConnect env saveOk session0).2.1 =
      { session0 with lastClientHandshakePacket := some hp } ∧
    Event.saveSession saveOk ∈ (tryConnect env saveOk session0).2.2 := by
  constructor <;> simp [tryConnect, hset, hs, hv]

/-- The outcome and the session record of an attempt do not depend on
whether the session-file write succeeded: a save failure is only logged. -/
theorem tryConnect_saveOk_independent (env : ConnectEnv) (session0 : SessionDesc)
    (b1 b2 : Bool) :
    (tryConnect env b1 session0).1 = (tryConnect env b2 session0).1 ∧
    (tryConnect env b1 session0).2.1 = (tryConnect env b2 session0).2.1 := by
  cases hso : env.settingsOk <;> cases hsr : env.searchResult <;>
    simp [tryConnect, hso, hsr] <;> split_ifs <;> simp

/-- Claim C9: loading the persisted session record never fails — a
missing or unreadable file and invalid JSON both fall back to the default
record after a warning — and once a handshake passes version validation
the record's last-handshake field is set to that client's packet and a
save is attempted, with a save failure affecting neither the outcome nor
the stored record. -/
theorem C9_session_record_resilience :
    (∀ parse, sessionDescLoad none parse =
      (SessionDesc.default, [LoadWarning.missingSessionFile])) ∧
    (∀ (s : String) (parse : String → Option SessionDesc), parse s = none →
      sessionDescLoad (some s) parse =
        (SessionDesc.default, [LoadWarning.invalidSessionFile])) ∧
    (∀ (s : String) (parse : String → Option SessionDesc) (d : SessionDesc),
      parse s = some d → sessionDescLoad (some s) parse = (d, [])) ∧
    (∀ (env : ConnectEnv) (saveOk : Bool) (session0 : SessionDesc)
        (hp : ClientHandshakePacket),
      env.settingsOk = true → env.searchResult = some hp →
      ¬ hp.version < env.minVersionClient →
      (tryConnect env saveOk session0).2.1 =
        { session0 with lastClientHandshakePacket := some hp } ∧
      Event.saveSession saveOk ∈ (tryConnect env saveOk session0).2.2) ∧
    (∀ (env : ConnectEnv) (session0 : SessionDesc) (b1 b2 : Bool),
      (tryConnect env b1 session0).1 = (tryConnect env b2 session0).1 ∧
      (tryConnect env b1 session0).2.1 = (tryConnect env b2 session0).2.1) := by
  refine ⟨fun parse => rfl, fun s parse hparse => ?_, fun s parse d hparse => ?_,
    ?_, ?_⟩
  · simp [sessionDescLoad, hparse]
  · simp [sessionDescLoad, hparse]
  · intro env saveOk session0 hp hset hs hv
    exact tryConnect_session_updated env saveOk session0 hp hset hs hv
  · intro env session0 b1 b2
    exact tryConnect_saveOk_independent env session0 b1 b2

/-- Witness for C9: a failing save (`saveOk := false`) on the concrete
successful environment still updates the record and logs the attempt. -/
theorem C9_witness :
    (tryConnect envClientDisc false SessionDesc.default).2.1 =
      { SessionDesc.default with
          lastClientHandshakePacket := some (⟨2, (1920, 1080), 72⟩ :
            ClientHandshakePacket) } ∧
    Event.saveSession false ∈
      (tryConnect envClientDisc false SessionDesc.default).2.2 :=
  C9_session_record_resilience.2.2.2.1 envClientDisc false SessionDesc.default
    ⟨2, (1920, 1080), 72⟩ rfl rfl (by decide)

end BridgeVR
